import Mathlib

/-!
Shallow embedding of the notes-tracker backend core: the in-memory record
store (`src/backend/db/notes-db.js`), the action log
(`src/backend/services/logger-service.js`), input validation
(`src/backend/utils/validation.js`), the error taxonomy
(`src/backend/utils/error-handler.js`) and the notes service
(`src/backend/services/notes-service.js`).

JavaScript values that the code inspects dynamically (truthiness, `typeof`,
`.trim()` availability) are modelled by `JSVal`; an absent / `undefined`
field is `Option.none`.  Wall-clock readings (`Date.now()`,
`new Date().toISOString()`) are modelled by an explicit `now : Nat`
parameter, millisecond precision; the ISO-8601 rendering of a timestamp is
kept as the `Nat` itself (the rendering is strictly monotone and injective,
so equalities and orderings of timestamps are unaffected).  Exceptions are
modelled with `Except`; every operation returns the (possibly unchanged)
state together with its result, and an `Except.error` result is produced at
exactly the program points where the JavaScript throws, so "the store and
the log are unchanged" is a provable statement about the returned state.
-/

namespace NotesTracker

/-- A JavaScript runtime value as far as the backend core inspects it. -/
inductive JSVal where
  | str (s : String)
  | num (n : Int)
  | boolean (b : Bool)
  | null
deriving DecidableEq, Repr

/-- JavaScript truthiness of a possibly-`undefined` value (`none` = `undefined`). -/
def jsTruthy : Option JSVal → Bool
  | none => false
  | some (.str s) => s != ""
  | some (.num n) => n != 0
  | some (.boolean b) => b
  | some .null => false

/-- Evaluation of `typeof v === "string"` on a possibly-`undefined` value. -/
def jsIsString : Option JSVal → Bool
  | some (.str _) => true
  | _ => false

/-- Extract the string payload; only evaluated on values known to be strings. -/
def jsGetStr : Option JSVal → String
  | some (.str s) => s
  | _ => ""

/-- The whitespace characters stripped by JavaScript `String.prototype.trim`
(restricted to the ASCII whitespace actually relevant to this codebase). -/
def jsWhite (c : Char) : Bool :=
  c == ' ' || c == '\t' || c == '\n' || c == '\x0d' || c == '\x0b' || c == '\x0c'

/-- Strip leading and trailing whitespace from a character list. -/
def trimChars (l : List Char) : List Char :=
  ((l.dropWhile jsWhite).reverse.dropWhile jsWhite).reverse

/-- Model of JavaScript `String.prototype.trim`. -/
def jsTrim (s : String) : String :=
  ⟨trimChars s.data⟩

/-- Is `p` an initial segment of `s`? (helper for `strIncludes`). -/
def segAt : List Char → List Char → Bool
  | [], _ => true
  | _ :: _, [] => false
  | p :: ps, c :: cs => p == c && segAt ps cs

/-- Does `p` occur as a contiguous segment of `s`? (helper for `strIncludes`). -/
def hasSeg (p : List Char) : List Char → Bool
  | [] => segAt p []
  | c :: cs => segAt p (c :: cs) || hasSeg p cs

/-- Model of JavaScript `String.prototype.includes`. -/
def strIncludes (s pat : String) : Bool :=
  hasSeg pat.data s.data

/-! ## Error taxonomy (`src/backend/utils/error-handler.js`) -/

/-- The `details` object attached to an error. -/
inductive ErrDetails where
  | noDetails
  | field (f : String)
  | byId (id : String)
  | original (msg : String)
deriving DecidableEq, Repr

/-- A thrown JavaScript `Error`: plain errors (from `new Error(msg)` or a
`TypeError`) have `code = none`; errors built by `createError` carry a code,
an HTTP status and details. -/
structure JsError where
  message : String
  code : Option String := none
  statusCode : Option Nat := none
  details : ErrDetails := .noDetails
deriving DecidableEq, Repr

/-- Model of `createError` from `error-handler.js`. -/
def createError (message code : String) (statusCode : Nat) (details : ErrDetails) : JsError :=
  { message := message, code := some code, statusCode := some statusCode, details := details }

/-- Model of `createValidationError` from `error-handler.js`. -/
def createValidationError (message : String) (details : ErrDetails) : JsError :=
  createError message "VALIDATION_ERROR" 400 details

/-- Model of `createNotFoundError` from `error-handler.js`. -/
def createNotFoundError (message : String) (details : ErrDetails) : JsError :=
  createError message "NOT_FOUND" 404 details

/-- Model of `createInternalError` from `error-handler.js`. -/
def createInternalError (message : String) (details : ErrDetails) : JsError :=
  createError message "INTERNAL_ERROR" 500 details

/-! ## Action log (`src/backend/services/logger-service.js`) -/

def LogAction.NOTE_CREATED : String := "NOTE_CREATED"
def LogAction.NOTE_UPDATED : String := "NOTE_UPDATED"
def LogAction.NOTE_DELETED : String := "NOTE_DELETED"
def LogAction.NOTES_LIST_VIEWED : String := "NOTES_LIST_VIEWED"
def LogAction.NOTE_DETAILS_VIEWED : String := "NOTE_DETAILS_VIEWED"
def LogAction.APP_STARTED : String := "APP_STARTED"
def LogAction.DB_RESET : String := "DB_RESET"

/-- The fixed enumeration `Object.values(LogAction)` of valid actions. -/
def logActionValues : List String :=
  [LogAction.NOTE_CREATED, LogAction.NOTE_UPDATED, LogAction.NOTE_DELETED,
   LogAction.NOTES_LIST_VIEWED, LogAction.NOTE_DETAILS_VIEWED,
   LogAction.APP_STARTED, LogAction.DB_RESET]

/-- The `details` object attached to a log entry by the notes service. -/
inductive LogDetails where
  | created (noteId title : String)
  | updated (noteId : String) (updatedFields : List String)
  | deleted (noteId : String)
deriving DecidableEq, Repr

/-- A stored log entry: `{id, action, timestamp, details}`; the action is
stored as the string the caller supplied, as in the JavaScript. -/
structure LogEntry where
  id : String
  action : String
  timestamp : Nat
  details : Option LogDetails
deriving DecidableEq, Repr

/-- The argument object of `loggerService.add` (an `entry` without id and
timestamp); `action : none` models an absent / `undefined` action field. -/
structure RawEntry where
  action : Option JSVal := none
  details : Option LogDetails := none
deriving DecidableEq, Repr

/-- Model of `add` from `logger-service.js`: a null/undefined entry and an entry whose
action is falsy or not a member of `Object.values(LogAction)` are silently
discarded; otherwise exactly one entry with a fresh id and the current
timestamp is appended.  The surrounding `try`/`catch` swallows any exception,
so the function is total and never propagates a failure; the returned list is
the new log. -/
def loggerAdd (logs : List LogEntry) (now : Nat) (entry : Option RawEntry) : List LogEntry :=
  match entry with
  | none => logs
  | some e =>
    if !(jsTruthy e.action) || !(logActionValues.any (fun s => e.action == some (.str s))) then
      logs
    else
      logs ++ [{ id := toString now, action := jsGetStr e.action,
                 timestamp := now, details := e.details }]

/-- Model of `getByAction` from `logger-service.js`. -/
def loggerGetByAction (logs : List LogEntry) (action : String) : List LogEntry :=
  logs.filter (fun log => log.action == action)

/-! ## Record store (`src/backend/db/notes-db.js`): a JavaScript `Map`
modelled as an insertion-ordered association list. -/

/-- A note record `{id, title, content, lastModified}`; `lastModified` holds
the millisecond timestamp whose ISO-8601 rendering the JavaScript stores. -/
structure Note where
  id : String
  title : String
  content : String
  lastModified : Nat
deriving DecidableEq, Repr

/-- Model of `Map.prototype.get`. -/
def dbGet (db : List (String × Note)) (id : String) : Option Note :=
  (db.find? (fun p => p.1 == id)).map (fun p => p.2)

/-- Model of `Map.prototype.has`. -/
def dbHas (db : List (String × Note)) (id : String) : Bool :=
  db.any (fun p => p.1 == id)

/-- Model of `Map.prototype.set`: overwrite in place if the key exists (a JavaScript
`Map` keeps the original insertion position), else append. -/
def dbSet (db : List (String × Note)) (id : String) (n : Note) : List (String × Note) :=
  if dbHas db id then
    db.map (fun p => if p.1 == id then (id, n) else p)
  else
    db ++ [(id, n)]

/-- Model of `Map.prototype.delete` (the service discards the returned Boolean). -/
def dbDelete (db : List (String × Note)) (id : String) : List (String × Note) :=
  db.filter (fun p => p.1 != id)

/-- Model of `Array.from(notesDB.values())`: values in insertion order. -/
def dbValues (db : List (String × Note)) : List Note :=
  db.map (fun p => p.2)

/-- The process-wide mutable state the service owns: the record store and the
action log. -/
structure ServiceState where
  db : List (String × Note)
  logs : List LogEntry
deriving DecidableEq, Repr

/-- The state at server start: empty store, empty log. -/
def emptyState : ServiceState := { db := [], logs := [] }

/-! ## Validation (`src/backend/utils/validation.js`) -/

/-- The `noteData` argument of `createNote`: an object with possibly-absent
`title` and `content` fields (`none` = key absent or `undefined`). -/
structure NoteInput where
  title : Option JSVal := none
  content : Option JSVal := none
deriving DecidableEq, Repr

/-- Model of `validateNoteData` from `validation.js`: throws a plain `Error` (message
only) on the first failing check, in source order. -/
def validateNoteData (noteData : Option NoteInput) : Except String Unit :=
  match noteData with
  | none => .error "Note data is required"
  | some d =>
    if !(jsTruthy d.title) || !(jsIsString d.title) then
      .error "Title is required and must be a string"
    else if jsTrim (jsGetStr d.title) == "" then
      .error "Title cannot be empty"
    else if !(jsTruthy d.content) || !(jsIsString d.content) then
      .error "Content is required and must be a string"
    else if jsTrim (jsGetStr d.content) == "" then
      .error "Content cannot be empty"
    else
      .ok ()

/-! ## Notes service (`src/backend/services/notes-service.js`) -/

/-- Model of `getAllNotes`: snapshot the store, then log `NOTES_LIST_VIEWED` with no
details, then return the snapshot. -/
def getAllNotes (st : ServiceState) (now : Nat) : ServiceState × List Note :=
  let notes := dbValues st.db
  let logs := loggerAdd st.logs now
    (some { action := some (.str LogAction.NOTES_LIST_VIEWED) })
  ({ st with logs := logs }, notes)

/-- The `catch` block of `createNote`: a message mentioning "required" or
"empty" is re-thrown as a `ValidationError` (with a field guessed from the
message), anything else is wrapped as an `InternalError`. -/
def createNoteCatch (e : JsError) : JsError :=
  if strIncludes e.message "required" || strIncludes e.message "empty" then
    createValidationError e.message
      (.field (if strIncludes e.message "Title" then "title" else "content"))
  else
    createInternalError "Failed to create note" (.original e.message)

/-- The record built by `createNote` on the success path: the id is
`Date.now().toString()`, title and content are trimmed, `lastModified` is the
current timestamp. -/
def mkNote (now : Nat) (d : NoteInput) : Note :=
  { id := toString now, title := jsTrim (jsGetStr d.title),
    content := jsTrim (jsGetStr d.content), lastModified := now }

/-- Model of `createNote`: validate, build the record, store it under its id, log
`NOTE_CREATED` with `{noteId, title}`, return the record.  A validation
failure is re-thrown through `createNoteCatch` before any mutation; the
second error branch is unreachable because `validateNoteData none` always
fails. -/
def createNote (st : ServiceState) (now : Nat) (noteData : Option NoteInput) :
    ServiceState × Except JsError Note :=
  match validateNoteData noteData with
  | .error msg => (st, .error (createNoteCatch { message := msg }))
  | .ok _ =>
    match noteData with
    | none => (st, .error (createNoteCatch { message := "" }))
    | some d =>
      let note := mkNote now d
      let db := dbSet st.db note.id note
      let logs := loggerAdd st.logs now
        (some { action := some (.str LogAction.NOTE_CREATED),
                details := some (.created note.id note.title) })
      (⟨db, logs⟩, .ok note)

/-- Model of `getNoteById`: look up, throw `NotFoundError` if absent. -/
def getNoteById (st : ServiceState) (id : String) : Except JsError Note :=
  match dbGet st.db id with
  | none => .error (createNotFoundError ("Note with id '" ++ id ++ "' not found") (.byId id))
  | some note => .ok note

/-- The check `if (updates.title !== undefined && !updates.title.trim())`: `ok` when
the field is absent or a string with non-empty trim; a `ValidationError` when
it is a string trimming to empty; a plain `TypeError` (no code) when it is
present but not a string, since `.trim()` is not a function there. -/
def updateFieldCheck (fieldName : String) (v : Option JSVal) (emptyMsg : String) :
    Except JsError Unit :=
  match v with
  | none => .ok ()
  | some (.str s) =>
    if jsTrim s == "" then
      .error (createValidationError emptyMsg (.field fieldName))
    else
      .ok ()
  | some _ =>
    .error { message := "updates." ++ fieldName ++ ".trim is not a function" }

/-- The `updates` argument of `updateNote`: possibly-absent `title` and
`content` fields, plus an optional stray `id` key — the JavaScript object is
open, and an `id` key is merged into the record by the `...updates` spread. -/
structure Updates where
  title : Option JSVal := none
  content : Option JSVal := none
  idField : Option String := none
deriving DecidableEq, Repr

/-- The merge expression `updates.title?.trim() || note.title` (and likewise for content): absent
field keeps the old value; a string field contributes its trim unless the
trim is empty (falsy), in which case the old value wins.  The non-string case
is unreachable here because `updateFieldCheck` has already thrown. -/
def mergedField (v : Option JSVal) (old : String) : String :=
  match v with
  | some (.str s) => if jsTrim s == "" then old else jsTrim s
  | _ => old

/-- The record built by the merge
`{...note, ...updates, title: ..., content: ..., lastModified: ...}`:
an `id` key in `updates` overrides the record's id (nothing re-sets it), the
explicit properties override whatever the spread put in `title`, `content`
and `lastModified`. -/
def mergeNote (note : Note) (u : Updates) (now : Nat) : Note :=
  { id := u.idField.getD note.id,
    title := mergedField u.title note.title,
    content := mergedField u.content note.content,
    lastModified := now }

/-- The `try` block of `updateNote`, in source order: existence check, title
check, content check, merge, store, log `NOTE_UPDATED` with
`{noteId, updatedFields}`.  An `undefined` `updates` object raises a plain
`TypeError` at `updates.title`; the `dbGet` fallback branch is unreachable
because `dbHas` has already succeeded. -/
def updateNoteTry (st : ServiceState) (now : Nat) (id : String) (updates : Option Updates) :
    ServiceState × Except JsError Note :=
  if !(dbHas st.db id) then
    (st, .error (createNotFoundError ("Note with id '" ++ id ++ "' not found") (.byId id)))
  else
    match updates with
    | none =>
      (st, .error { message := "Cannot read properties of undefined (reading title)" })
    | some u =>
      match updateFieldCheck "title" u.title "Title cannot be empty" with
      | .error e => (st, .error e)
      | .ok _ =>
        match updateFieldCheck "content" u.content "Content cannot be empty" with
        | .error e => (st, .error e)
        | .ok _ =>
          match dbGet st.db id with
          | none => (st, .error { message := "" })
          | some note =>
            let updatedFields :=
              (if u.title.isSome then ["title"] else []) ++
              (if u.content.isSome then ["content"] else [])
            let updatedNote := mergeNote note u now
            let db := dbSet st.db id updatedNote
            let logs := loggerAdd st.logs now
              (some { action := some (.str LogAction.NOTE_UPDATED),
                      details := some (.updated id updatedFields) })
            (⟨db, logs⟩, .ok updatedNote)

/-- The `catch` block of `updateNote` and `deleteNote`: an error that already
carries a code (validation, not-found) is re-thrown unchanged; anything else
is wrapped as an `InternalError`. -/
def rethrowKnown (wrapMsg : String) (e : JsError) : JsError :=
  if e.code.isSome then e else createInternalError wrapMsg (.original e.message)

/-- Model of `updateNote`: its `try` block under its `catch` block. -/
def updateNote (st : ServiceState) (now : Nat) (id : String) (updates : Option Updates) :
    ServiceState × Except JsError Note :=
  match updateNoteTry st now id updates with
  | (st', .ok n) => (st', .ok n)
  | (st', .error e) => (st', .error (rethrowKnown "Failed to update note" e))

/-- The `try` block of `deleteNote`: existence check, remove, log
`NOTE_DELETED` with `{noteId}`, return `true`. -/
def deleteNoteTry (st : ServiceState) (now : Nat) (id : String) :
    ServiceState × Except JsError Bool :=
  if !(dbHas st.db id) then
    (st, .error (createNotFoundError ("Note with id '" ++ id ++ "' not found") (.byId id)))
  else
    let db := dbDelete st.db id
    let logs := loggerAdd st.logs now
      (some { action := some (.str LogAction.NOTE_DELETED),
              details := some (.deleted id) })
    (⟨db, logs⟩, .ok true)

/-- Model of `deleteNote`: its `try` block under its `catch` block. -/
def deleteNote (st : ServiceState) (now : Nat) (id : String) :
    ServiceState × Except JsError Bool :=
  match deleteNoteTry st now id with
  | (st', .ok b) => (st', .ok b)
  | (st', .error e) => (st', .error (rethrowKnown "Failed to delete note" e))

/-! ## Claim-level predicates and execution traces -/

/-- A `title`/`content` field that `validateNoteData` rejects: absent, not a
string, or a string trimming to empty. -/
def badField (v : Option JSVal) : Prop :=
  (∀ s, v ≠ some (JSVal.str s)) ∨ ∃ s, v = some (JSVal.str s) ∧ jsTrim s = ""

/-- A `title`/`content` field that `validateNoteData` accepts: a string with
non-empty trim. -/
def goodField (v : Option JSVal) : Prop :=
  ∃ s, v = some (JSVal.str s) ∧ jsTrim s ≠ ""

/-- Run a sequence of `createNote` calls, each with its own clock reading,
threading the state and collecting the results. -/
def runCreates (st : ServiceState) :
    List (Nat × Option NoteInput) → ServiceState × List (Except JsError Note)
  | [] => (st, [])
  | (now, nd) :: rest =>
    let r := createNote st now nd
    let rr := runCreates r.1 rest
    (rr.1, r.2 :: rr.2)

/-- The id of a successful result, `none` for a failure. -/
def okId : Except JsError Note → Option String
  | .ok n => some n.id
  | .error _ => none

/-- The ids returned by the successful calls of a result sequence. -/
def resIds (rs : List (Except JsError Note)) : List String :=
  rs.filterMap okId

/-- The record invariant of the data model: non-empty title and content,
each equal to its own trim. -/
def recordWF (n : Note) : Prop :=
  n.title ≠ "" ∧ jsTrim n.title = n.title ∧ n.content ≠ "" ∧ jsTrim n.content = n.content

/-- Every record in the store satisfies the record invariant and was last
modified no later than `t`. -/
def dbWF (st : ServiceState) (t : Nat) : Prop :=
  ∀ p ∈ st.db, recordWF p.2 ∧ p.2.lastModified ≤ t

/-- One mutating service operation executed at clock reading `now`. -/
inductive StepAt : Nat → ServiceState → ServiceState → Prop where
  | create (st : ServiceState) (now : Nat) (nd : Option NoteInput) :
      StepAt now st (createNote st now nd).1
  | update (st : ServiceState) (now : Nat) (id : String) (u : Option Updates) :
      StepAt now st (updateNote st now id u).1
  | delete (st : ServiceState) (now : Nat) (id : String) :
      StepAt now st (deleteNote st now id).1

/-- States reachable from the empty store by `createNote`, `updateNote` and
`deleteNote` under a non-decreasing clock; the index is the clock reading of
the latest operation. -/
inductive Reach : Nat → ServiceState → Prop where
  | init (t : Nat) : Reach t emptyState
  | step (t now : Nat) (st st' : ServiceState) (hr : Reach t st) (hle : t ≤ now)
      (hs : StepAt now st st') : Reach now st'

/-! ## Helper lemmas about the store and the log -/

theorem loggerAdd_app (logs : List LogEntry) (now : Nat) (s : String) (d : Option LogDetails)
    (hmem : s ∈ logActionValues) (hne : s ≠ "") :
    loggerAdd logs now (some { action := some (.str s), details := d }) =
      logs ++ [{ id := toString now, action := s, timestamp := now, details := d }] := by
  have hT : jsTruthy (some (.str s)) = true := by
    simp [jsTruthy, hne]
  have hA : logActionValues.any (fun x => some (JSVal.str s) == some (.str x)) = true := by
    rw [List.any_eq_true]
    exact ⟨s, hmem, by simp⟩
  simp only [loggerAdd, hT, hA, Bool.not_true, Bool.false_or, Bool.or_self, if_false,
    Bool.not_eq_true', jsGetStr]
  simp [jsGetStr]

theorem dbHas_of_dbGet {db : List (String × Note)} {id : String} {n : Note}
    (h : dbGet db id = some n) : dbHas db id = true := by
  unfold dbGet at h
  unfold dbHas
  rcases hf : db.find? (fun p => p.1 == id) with _ | q
  · rw [hf] at h; simp at h
  · rw [List.any_eq_true]
    have hq := List.find?_some hf
    exact ⟨q, List.mem_of_find?_eq_some hf, hq⟩

theorem dbGet_dbSet_self (db : List (String × Note)) (id : String) (n : Note) :
    dbGet (dbSet db id n) id = some n := by
  unfold dbSet
  by_cases h : dbHas db id
  · rw [if_pos h]
    unfold dbHas at h
    induction db with
    | nil => simp at h
    | cons q db ih =>
      by_cases hq : q.1 = id
      · simp [dbGet, List.find?, hq]
      · have hq' : (q.1 == id) = false := by simp [hq]
        simp only [List.any_cons, hq', Bool.false_or] at h
        simp only [List.map_cons, hq', if_false]
        simpa [dbGet, List.find?, hq'] using ih h
  · rw [if_neg h]
    unfold dbHas at h
    induction db with
    | nil => simp [dbGet]
    | cons q db ih =>
      have hq : (q.1 == id) = false := by
        by_contra hc
        exact h (by simp_all)
      have hdb : ¬ db.any (fun p => p.1 == id) = true := by
        intro hc
        exact h (by simp [List.any_cons, hc])
      simpa [dbGet, List.find?, hq] using ih hdb

theorem mem_dbSet {db : List (String × Note)} {id : String} {n : Note} {p : String × Note}
    (h : p ∈ dbSet db id n) : p = (id, n) ∨ p ∈ db := by
  unfold dbSet at h
  by_cases hh : dbHas db id
  · rw [if_pos hh] at h
    rcases List.mem_map.mp h with ⟨q, hq, hfq⟩
    by_cases hq1 : q.1 == id
    · left; rw [if_pos hq1] at hfq; exact hfq.symm
    · right; rw [if_neg (by simp_all)] at hfq; exact hfq ▸ hq
  · rw [if_neg hh] at h
    rcases List.mem_append.mp h with h' | h'
    · right; exact h'
    · left; simpa using h'

theorem dbSet_fresh {db : List (String × Note)} {id : String} (n : Note)
    (h : dbHas db id = false) : dbSet db id n = db ++ [(id, n)] := by
  unfold dbSet
  rw [if_neg (by simp [h])]

theorem mem_dbDelete {db : List (String × Note)} {id : String} {p : String × Note}
    (h : p ∈ dbDelete db id) : p ∈ db :=
  List.mem_of_mem_filter h

/-! ## C8 and C9: the action log and `getAllNotes` -/

/-- C8: `loggerService.add` discards (leaving the log unchanged) a
null/undefined entry and an entry whose action is not a member of the fixed
`LogAction` enumeration, and on a valid action appends exactly one entry with
the freshly generated id `Date.now().toString()` and the current timestamp.
The function is total, so no failure ever propagates to the caller. -/
theorem loggerAdd_spec (logs : List LogEntry) (now : Nat) (entry : Option RawEntry) :
    (entry = none → loggerAdd logs now entry = logs) ∧
    (∀ e, entry = some e →
      (∀ s, e.action = some (.str s) → s ∉ logActionValues) →
      loggerAdd logs now entry = logs) ∧
    (∀ e s, entry = some e → e.action = some (.str s) → s ∈ logActionValues →
      loggerAdd logs now entry =
        logs ++ [{ id := toString now, action := s, timestamp := now, details := e.details }]) := by
  refine ⟨fun h => by rw [h]; rfl, ?_, ?_⟩
  · rintro e rfl hbad
    rcases ha : e.action with _ | v
    · simp [loggerAdd, ha, jsTruthy]
    · rcases v with s | n | b | _
      · have hs := hbad s ha
        have hA : logActionValues.any (fun x => e.action == some (.str x)) = false := by
          rw [List.any_eq_false]
          intro x hx
          simp only [ha, Option.some.injEq, JSVal.str.injEq, beq_iff_eq]
          rintro rfl
          exact hs hx
        simp [loggerAdd, hA]
      · have hA : logActionValues.any (fun x => e.action == some (.str x)) = false := by
          rw [List.any_eq_false]; intro x hx; simp [ha]
        simp [loggerAdd, hA]
      · have hA : logActionValues.any (fun x => e.action == some (.str x)) = false := by
          rw [List.any_eq_false]; intro x hx; simp [ha]
        simp [loggerAdd, hA]
      · simp [loggerAdd, ha, jsTruthy]
  · rintro e s rfl ha hmem
    have hmem' : s = LogAction.NOTE_CREATED ∨ s = LogAction.NOTE_UPDATED ∨
        s = LogAction.NOTE_DELETED ∨ s = LogAction.NOTES_LIST_VIEWED ∨
        s = LogAction.NOTE_DETAILS_VIEWED ∨ s = LogAction.APP_STARTED ∨
        s = LogAction.DB_RESET := by
      simpa [logActionValues] using hmem
    have hne : s ≠ "" := by
      rcases hmem' with rfl | rfl | rfl | rfl | rfl | rfl | rfl <;> decide
    have := loggerAdd_app logs now s e.details hmem hne
    have he : e = { action := some (.str s), details := e.details } := by
      cases e; simp_all
    rw [he]
    exact this

/-- Closed witness for `loggerAdd_spec`: the three cases evaluated on
concrete entries at time 7. -/
theorem loggerAdd_spec_witness :
    loggerAdd [] 7 none = [] ∧
    loggerAdd [] 7 (some { action := some (.str "BOGUS") }) = [] ∧
    loggerAdd [] 7 (some { action := some (.str "NOTE_CREATED") }) =
      [{ id := "7", action := "NOTE_CREATED", timestamp := 7, details := none }] :=
  ⟨(loggerAdd_spec [] 7 none).1 rfl,
   (loggerAdd_spec [] 7 (some { action := some (.str "BOGUS") })).2.1
     { action := some (.str "BOGUS") } rfl (by intro s hs; simp at hs; subst hs; decide),
   (loggerAdd_spec [] 7 (some { action := some (.str "NOTE_CREATED") })).2.2
     { action := some (.str "NOTE_CREATED") } "NOTE_CREATED" rfl rfl (by decide)⟩

/-- C9: `getAllNotes` returns the store's records (so the empty sequence on
an empty store, never an error — the operation is total), leaves the store
unchanged, and appends exactly one `NOTES_LIST_VIEWED` log entry carrying no
per-note detail. -/
theorem getAllNotes_spec (st : ServiceState) (now : Nat) :
    (getAllNotes st now).2 = dbValues st.db ∧
    (getAllNotes st now).1.db = st.db ∧
    (getAllNotes st now).1.logs =
      st.logs ++ [{ id := toString now, action := LogAction.NOTES_LIST_VIEWED,
                    timestamp := now, details := none }] ∧
    (st.db = [] → (getAllNotes st now).2 = []) := by
  have hadd := loggerAdd_app st.logs now LogAction.NOTES_LIST_VIEWED none
    (by simp [logActionValues]) (by simp [LogAction.NOTES_LIST_VIEWED])
  refine ⟨rfl, rfl, hadd, fun h => ?_⟩
  simp [getAllNotes, dbValues, h]

/-- Closed witness for `getAllNotes_spec` at the empty store. -/
theorem getAllNotes_spec_witness :
    (getAllNotes emptyState 3).2 = [] ∧
    (getAllNotes emptyState 3).1.logs =
      [{ id := "3", action := "NOTES_LIST_VIEWED", timestamp := 3, details := none }] :=
  ⟨(getAllNotes_spec emptyState 3).2.2.2 rfl,
   (getAllNotes_spec emptyState 3).2.2.1⟩

/-- C6: on an id absent from the store, `updateNote` (whatever the updates
object) and `deleteNote` both fail with a `NotFoundError` — code `NOT_FOUND`,
status 404, details carrying the missing id — and leave the store and the
action log unchanged. -/
theorem missing_id_not_found (st : ServiceState) (now : Nat) (id : String)
    (u : Option Updates) (h : dbHas st.db id = false) :
    updateNote st now id u =
      (st, .error { message := "Note with id '" ++ id ++ "' not found",
                    code := some "NOT_FOUND", statusCode := some 404,
                    details := .byId id }) ∧
    deleteNote st now id =
      (st, .error { message := "Note with id '" ++ id ++ "' not found",
                    code := some "NOT_FOUND", statusCode := some 404,
                    details := .byId id }) := by
  constructor
  · simp [updateNote, updateNoteTry, h, rethrowKnown, createNotFoundError, createError]
  · simp [deleteNote, deleteNoteTry, h, rethrowKnown, createNotFoundError, createError]

/-- Closed witness for `missing_id_not_found` on an empty store. -/
theorem missing_id_not_found_witness :
    updateNote emptyState 0 "missing" none =
      (emptyState, .error { message := "Note with id 'missing' not found",
                            code := some "NOT_FOUND", statusCode := some 404,
                            details := .byId "missing" }) ∧
    deleteNote emptyState 0 "missing" =
      (emptyState, .error { message := "Note with id 'missing' not found",
                            code := some "NOT_FOUND", statusCode := some 404,
                            details := .byId "missing" }) :=
  missing_id_not_found emptyState 0 "missing" none rfl

/-! ## Validation and `createNote` lemmas -/

theorem jsIsString_shape {v : Option JSVal} (h : jsIsString v = true) :
    ∃ s, v = some (.str s) := by
  match v with
  | some (.str s) => exact ⟨s, rfl⟩
  | none | some (.num _) | some (.boolean _) | some .null => simp [jsIsString] at h

theorem validateNoteData_ok_of (t c : String) (ht : jsTrim t ≠ "") (hc : jsTrim c ≠ "") :
    validateNoteData (some { title := some (.str t), content := some (.str c) }) = .ok () := by
  have ht0 : t ≠ "" := fun h => ht (by rw [h]; decide)
  have hc0 : c ≠ "" := fun h => hc (by rw [h]; decide)
  simp [validateNoteData, jsTruthy, jsIsString, jsGetStr, ht0, hc0, ht, hc]

theorem validateNoteData_ok_shape {nd : Option NoteInput}
    (h : validateNoteData nd = .ok ()) :
    ∃ t c, nd = some { title := some (.str t), content := some (.str c) } ∧
      jsTrim t ≠ "" ∧ jsTrim c ≠ "" := by
  match nd with
  | none => simp [validateNoteData] at h
  | some d =>
    simp only [validateNoteData] at h
    split_ifs at h with h1 h2 h3 h4
    try simp at h
    simp at h1 h2 h3 h4
    rcases jsIsString_shape h1.2 with ⟨t, hT⟩
    rcases jsIsString_shape h3.2 with ⟨c, hC⟩
    refine ⟨t, c, ?_, ?_, ?_⟩
    · cases d; simp_all
    · rw [hT] at h2; simpa [jsGetStr] using h2
    · rw [hC] at h4; simpa [jsGetStr] using h4

/-- The success path of `createNote` on a valid input, fully evaluated. -/
theorem createNote_ok (st : ServiceState) (now : Nat) (t c : String)
    (ht : jsTrim t ≠ "") (hc : jsTrim c ≠ "") :
    createNote st now (some { title := some (.str t), content := some (.str c) }) =
      (⟨dbSet st.db (toString now)
          { id := toString now, title := jsTrim t, content := jsTrim c, lastModified := now },
        st.logs ++ [{ id := toString now, action := LogAction.NOTE_CREATED, timestamp := now,
                      details := some (.created (toString now) (jsTrim t)) }]⟩,
       .ok { id := toString now, title := jsTrim t, content := jsTrim c, lastModified := now }) := by
  have hval := validateNoteData_ok_of t c ht hc
  have hadd := loggerAdd_app st.logs now LogAction.NOTE_CREATED
    (some (.created (toString now) (jsTrim t))) (by simp [logActionValues]) (by decide)
  simp [createNote, hval, mkNote, jsGetStr, hadd]

/-- C1: on an input with string title and content whose trims are non-empty,
`createNote` returns the record with trimmed fields, freshly generated id
`Date.now().toString()` and `lastModified = now`, stores that record under
its id, and appends exactly one log entry, a `NOTE_CREATED` one. -/
theorem createNote_valid_spec (st : ServiceState) (now : Nat) (t c : String)
    (ht : jsTrim t ≠ "") (hc : jsTrim c ≠ "") :
    (createNote st now (some { title := some (.str t), content := some (.str c) })).2 =
      .ok { id := toString now, title := jsTrim t, content := jsTrim c, lastModified := now } ∧
    dbGet (createNote st now
        (some { title := some (.str t), content := some (.str c) })).1.db (toString now) =
      some { id := toString now, title := jsTrim t, content := jsTrim c, lastModified := now } ∧
    (createNote st now (some { title := some (.str t), content := some (.str c) })).1.logs =
      st.logs ++ [{ id := toString now, action := LogAction.NOTE_CREATED, timestamp := now,
                    details := some (.created (toString now) (jsTrim t)) }] := by
  rw [createNote_ok st now t c ht hc]
  exact ⟨rfl, dbGet_dbSet_self _ _ _, rfl⟩

/-- Closed witness for `createNote_valid_spec`: a concrete creation with
fields that need trimming. -/
theorem createNote_valid_spec_witness :
    (createNote emptyState 0 (some { title := some (.str " a "), content := some (.str "b") })).2 =
      .ok { id := "0", title := "a", content := "b", lastModified := 0 } ∧
    dbGet (createNote emptyState 0
        (some { title := some (.str " a "), content := some (.str "b") })).1.db "0" =
      some { id := "0", title := "a", content := "b", lastModified := 0 } ∧
    (createNote emptyState 0
        (some { title := some (.str " a "), content := some (.str "b") })).1.logs =
      [{ id := "0", action := "NOTE_CREATED", timestamp := 0,
         details := some (.created "0" "a") }] :=
  createNote_valid_spec emptyState 0 " a " "b" (by decide) (by decide)

theorem validateNoteData_title_err {d : NoteInput} (h : badField d.title) :
    validateNoteData (some d) = .error "Title is required and must be a string" ∨
    validateNoteData (some d) = .error "Title cannot be empty" := by
  rcases h with h | ⟨s, hs, hts⟩
  · rcases ht : d.title with _ | v
    · left; simp [validateNoteData, ht, jsTruthy, jsIsString]
    · rcases v with s | n | b | _
      · exact absurd ht (h s)
      · left; simp [validateNoteData, ht, jsTruthy, jsIsString]
      · left; simp [validateNoteData, ht, jsTruthy, jsIsString]
      · left; simp [validateNoteData, ht, jsTruthy, jsIsString]
  · by_cases hse : s = ""
    · left; simp [validateNoteData, hs, hse, jsTruthy, jsIsString]
    · right; simp [validateNoteData, hs, jsTruthy, jsIsString, jsGetStr, hse, hts]

theorem validateNoteData_content_err {d : NoteInput} (hT : goodField d.title)
    (h : badField d.content) :
    validateNoteData (some d) = .error "Content is required and must be a string" ∨
    validateNoteData (some d) = .error "Content cannot be empty" := by
  rcases hT with ⟨t, hTt, hTne⟩
  have ht0 : t ≠ "" := fun h0 => hTne (by rw [h0]; decide)
  rcases h with h | ⟨s, hs, hts⟩
  · rcases hct : d.content with _ | v
    · left; simp [validateNoteData, hTt, hct, jsTruthy, jsIsString, jsGetStr, ht0, hTne]
    · rcases v with s | n | b | _
      · exact absurd hct (h s)
      · left; simp [validateNoteData, hTt, hct, jsTruthy, jsIsString, jsGetStr, ht0, hTne]
      · left; simp [validateNoteData, hTt, hct, jsTruthy, jsIsString, jsGetStr, ht0, hTne]
      · left; simp [validateNoteData, hTt, hct, jsTruthy, jsIsString, jsGetStr, ht0, hTne]
  · by_cases hse : s = ""
    · left
      simp [validateNoteData, hTt, hs, hse, jsTruthy, jsIsString, jsGetStr, ht0, hTne]
    · right
      simp [validateNoteData, hTt, hs, jsTruthy, jsIsString, jsGetStr, ht0, hTne, hse, hts]

/-- Any message produced by `validateNoteData` mentions "required" or
"empty", so `createNote`'s catch block classifies it as a validation
failure. -/
theorem createNoteCatch_validation {m : String}
    (h : (strIncludes m "required" || strIncludes m "empty") = true) :
    (createNoteCatch { message := m }).code = some "VALIDATION_ERROR" ∧
    (createNoteCatch { message := m }).statusCode = some 400 := by
  unfold createNoteCatch
  rw [if_pos h]
  exact ⟨rfl, rfl⟩

/-- C2: on an absent input, or one whose title or content is missing, not a
string, or trims to empty, `createNote` fails with a `ValidationError`
(code `VALIDATION_ERROR`, status 400) and leaves the store and the action
log untouched. -/
theorem createNote_invalid_spec (st : ServiceState) (now : Nat) (nd : Option NoteInput)
    (h : nd = none ∨ ∃ d, nd = some d ∧ (badField d.title ∨ badField d.content)) :
    (createNote st now nd).1 = st ∧
    ∃ e, (createNote st now nd).2 = .error e ∧
      e.code = some "VALIDATION_ERROR" ∧ e.statusCode = some 400 := by
  have herr : ∃ m, validateNoteData nd = .error m ∧
      (strIncludes m "required" || strIncludes m "empty") = true := by
    rcases h with rfl | ⟨d, rfl, hbad⟩
    · exact ⟨_, rfl, by decide⟩
    · rcases hbad with hbad | hbad
      · rcases validateNoteData_title_err hbad with h' | h'
        · exact ⟨_, h', by decide⟩
        · exact ⟨_, h', by decide⟩
      · by_cases hT : goodField d.title
        · rcases validateNoteData_content_err hT hbad with h' | h'
          · exact ⟨_, h', by decide⟩
          · exact ⟨_, h', by decide⟩
        · have hbadT : badField d.title := by
            unfold goodField at hT
            push_neg at hT
            rcases ht : d.title with _ | v
            · exact Or.inl (by intro s; simp)
            · rcases v with s | n | b | _
              · exact Or.inr ⟨s, rfl, by simpa using hT s (by rw [ht])⟩
              · exact Or.inl (by intro s; simp)
              · exact Or.inl (by intro s; simp)
              · exact Or.inl (by intro s; simp)
          rcases validateNoteData_title_err hbadT with h' | h'
          · exact ⟨_, h', by decide⟩
          · exact ⟨_, h', by decide⟩
  rcases herr with ⟨m, hm, hmok⟩
  have hcatch := createNoteCatch_validation hmok
  unfold createNote
  rw [hm]
  exact ⟨rfl, createNoteCatch { message := m }, rfl, hcatch⟩

/-- Closed witness for `createNote_invalid_spec`: a whitespace-only content
field is rejected with a `ValidationError` and no state change. -/
theorem createNote_invalid_spec_witness :
    (createNote emptyState 0
        (some { title := some (.str "x"), content := some (.str "   ") })).1 = emptyState ∧
    ∃ e, (createNote emptyState 0
        (some { title := some (.str "x"), content := some (.str "   ") })).2 = .error e ∧
      e.code = some "VALIDATION_ERROR" ∧ e.statusCode = some 400 :=
  createNote_invalid_spec emptyState 0
    (some { title := some (.str "x"), content := some (.str "   ") })
    (Or.inr ⟨_, rfl, Or.inr (Or.inr ⟨"   ", rfl, by decide⟩)⟩)

/-! ## `updateNote` lemmas -/

/-- A successful `updateNote` comes from a successful `try` block. -/
theorem updateNote_ok_imp_try {st : ServiceState} {now : Nat} {id : String}
    {u : Option Updates} {st' : ServiceState} {r : Note}
    (h : updateNote st now id u = (st', .ok r)) :
    updateNoteTry st now id u = (st', .ok r) := by
  unfold updateNote at h
  rcases htry : updateNoteTry st now id u with ⟨st2, res⟩
  rw [htry] at h
  cases res with
  | ok n =>
    have h' : st2 = st' ∧ n = r := by simpa using h
    rw [← h'.1, ← h'.2]
  | error e => simp at h

/-- Evaluation of the `try` block of `updateNote` past a successful
existence check. -/
theorem updateNoteTry_eq (st : ServiceState) (now : Nat) (id : String) (u : Updates)
    (hh : dbHas st.db id = true) :
    updateNoteTry st now id (some u) =
      match updateFieldCheck "title" u.title "Title cannot be empty" with
      | .error e => (st, .error e)
      | .ok _ =>
        match updateFieldCheck "content" u.content "Content cannot be empty" with
        | .error e => (st, .error e)
        | .ok _ =>
          match dbGet st.db id with
          | none => (st, .error { message := "" })
          | some note =>
            (⟨dbSet st.db id (mergeNote note u now),
              loggerAdd st.logs now
                (some { action := some (.str LogAction.NOTE_UPDATED),
                        details := some (.updated id
                          ((if u.title.isSome then ["title"] else []) ++
                           (if u.content.isSome then ["content"] else []))) })⟩,
             .ok (mergeNote note u now)) := by
  unfold updateNoteTry
  rw [if_neg (by simp [hh])]

/-- The shape of a successful `try` block of `updateNote`: the existing
record is merged with the updates and stored back under the same key. -/
theorem updateNoteTry_ok_shape {st : ServiceState} {now : Nat} {id : String}
    {u : Updates} {st' : ServiceState} {r : Note}
    (h : updateNoteTry st now id (some u) = (st', .ok r)) :
    ∃ note, dbGet st.db id = some note ∧ r = mergeNote note u now ∧
      st'.db = dbSet st.db id r := by
  by_cases hh : dbHas st.db id
  · rw [updateNoteTry_eq st now id u hh] at h
    rcases hT : updateFieldCheck "title" u.title "Title cannot be empty" with e | _ <;>
      rw [hT] at h
    · simp at h
    rcases hC : updateFieldCheck "content" u.content "Content cannot be empty" with e | _ <;>
      rw [hC] at h
    · simp at h
    rcases hgN : dbGet st.db id with _ | note <;> rw [hgN] at h
    · simp at h
    simp only [Prod.mk.injEq, Except.ok.injEq] at h
    exact ⟨note, rfl, h.2.symm, by rw [← h.1, h.2]⟩
  · unfold updateNoteTry at h
    rw [if_pos (by simp [hh])] at h
    simp at h

theorem updateFieldCheck_ok_of_str {f : String} {s : String} {m : String}
    (hs : jsTrim s ≠ "") : updateFieldCheck f (some (.str s)) m = .ok () := by
  simp [updateFieldCheck, hs]

/-- C4: on an existing record, a title-only update with non-empty trimmed
title changes only `title` and `lastModified` — `id` and `content` are
untouched — appends one `NOTE_UPDATED` log entry, and (when the clock has
advanced) the new `lastModified` is strictly greater than the prior one;
symmetrically for a content-only update. -/
theorem updateNote_partial_spec (st : ServiceState) (now : Nat) (id : String) (note : Note)
    (hg : dbGet st.db id = some note) :
    (∀ t, jsTrim t ≠ "" → note.lastModified < now →
      ∃ r, updateNote st now id (some { title := some (.str t) }) =
          (⟨dbSet st.db id r,
            st.logs ++ [{ id := toString now, action := LogAction.NOTE_UPDATED, timestamp := now,
                          details := some (.updated id ["title"]) }]⟩, .ok r) ∧
        r = { id := note.id, title := jsTrim t, content := note.content, lastModified := now } ∧
        note.lastModified < r.lastModified) ∧
    (∀ c, jsTrim c ≠ "" → note.lastModified < now →
      ∃ r, updateNote st now id (some { content := some (.str c) }) =
          (⟨dbSet st.db id r,
            st.logs ++ [{ id := toString now, action := LogAction.NOTE_UPDATED, timestamp := now,
                          details := some (.updated id ["content"]) }]⟩, .ok r) ∧
        r = { id := note.id, title := note.title, content := jsTrim c, lastModified := now } ∧
        r.title = note.title ∧
        note.lastModified < r.lastModified) := by
  have hh : dbHas st.db id = true := dbHas_of_dbGet hg
  have hadd := fun d => loggerAdd_app st.logs now LogAction.NOTE_UPDATED (some d)
    (by simp [logActionValues]) (by decide)
  constructor
  · intro t ht hlt
    refine ⟨{ id := note.id, title := jsTrim t, content := note.content, lastModified := now },
      ?_, rfl, hlt⟩
    unfold updateNote
    rw [updateNoteTry_eq st now id _ hh, updateFieldCheck_ok_of_str ht]
    simp [updateFieldCheck, hg, mergeNote, mergedField, ht, hadd]
  · intro c hc hlt
    refine ⟨{ id := note.id, title := note.title, content := jsTrim c, lastModified := now },
      ?_, rfl, rfl, hlt⟩
    unfold updateNote
    rw [updateNoteTry_eq st now id _ hh]
    simp [updateFieldCheck, updateFieldCheck_ok_of_str hc, hg, mergeNote, mergedField, hc, hadd]

/-- Closed witness for `updateNote_partial_spec`: a concrete title-only
update at a later clock reading. -/
theorem updateNote_partial_spec_witness :
    ∃ r, updateNote { db := [("1", { id := "1", title := "a", content := "b",
                                     lastModified := 0 })], logs := [] } 5 "1"
          (some { title := some (.str " New ") }) =
        (⟨dbSet [("1", { id := "1", title := "a", content := "b", lastModified := 0 })] "1" r,
          [{ id := "5", action := "NOTE_UPDATED", timestamp := 5,
             details := some (.updated "1" ["title"]) }]⟩, .ok r) ∧
      r = { id := "1", title := "New", content := "b", lastModified := 5 } ∧
      (0 : Nat) < r.lastModified :=
  (updateNote_partial_spec
    { db := [("1", { id := "1", title := "a", content := "b", lastModified := 0 })], logs := [] }
    5 "1" { id := "1", title := "a", content := "b", lastModified := 0 } (by decide)).1
    " New " (by decide) (by decide)

/-- C5 counterexample: an updates object carrying an `id` key is merged by
the `...updates` spread, so a successful `updateNote` changes the stored
record's `id` field — here from `"1"` to `"evil"` — refuting the claim for
arbitrary shapes of the updates object. -/
theorem updateNote_id_changed_cex :
    (updateNote { db := [("1", { id := "1", title := "a", content := "b", lastModified := 0 })],
                  logs := [] } 5 "1" (some { idField := some "evil" })).2 =
      .ok { id := "evil", title := "a", content := "b", lastModified := 5 } ∧
    dbGet (updateNote { db := [("1", { id := "1", title := "a", content := "b",
                                       lastModified := 0 })], logs := [] } 5 "1"
        (some { idField := some "evil" })).1.db "1" =
      some { id := "evil", title := "a", content := "b", lastModified := 5 } := by
  constructor <;> rfl

/-- C5 amended: for every updates object that does not itself carry an `id`
key, a successful `updateNote` preserves the record's id: the returned
record's `id` equals the prior one, and the record stored under the key is
the returned record. -/
theorem updateNote_id_preserved (st : ServiceState) (now : Nat) (id : String) (u : Updates)
    (note : Note) (hg : dbGet st.db id = some note) (hid : u.idField = none)
    {st' : ServiceState} {r : Note}
    (h : updateNote st now id (some u) = (st', .ok r)) :
    r.id = note.id ∧ dbGet st'.db id = some r := by
  have htry := updateNote_ok_imp_try h
  rcases updateNoteTry_ok_shape htry with ⟨note2, hg2, hr, hdb⟩
  have hnote : note2 = note := Option.some.inj (hg2.symm.trans hg)
  constructor
  · rw [hr, hnote]
    simp [mergeNote, hid]
  · rw [hdb]
    exact dbGet_dbSet_self _ _ _

/-- Closed witness for `updateNote_id_preserved`: an empty updates object on
a concrete store. -/
theorem updateNote_id_preserved_witness :
    ({ id := "1", title := "a", content := "b", lastModified := 5 } : Note).id =
      ({ id := "1", title := "a", content := "b", lastModified := 0 } : Note).id ∧
    dbGet [("1", { id := "1", title := "a", content := "b", lastModified := 5 })] "1" =
      some { id := "1", title := "a", content := "b", lastModified := 5 } :=
  @updateNote_id_preserved
    { db := [("1", { id := "1", title := "a", content := "b", lastModified := 0 })], logs := [] }
    5 "1" {} { id := "1", title := "a", content := "b", lastModified := 0 }
    (by decide) rfl
    { db := [("1", { id := "1", title := "a", content := "b", lastModified := 5 })],
      logs := [{ id := "5", action := "NOTE_UPDATED", timestamp := 5,
                 details := some (.updated "1" []) }] }
    { id := "1", title := "a", content := "b", lastModified := 5 }
    (by rfl)

/-- C10 counterexample: with an existing id, a title that trims to empty and
a non-string content, `updateNote` fails with a `ValidationError` (the title
check precedes the content check), not with an `InternalError` as the claim
states for every call providing a non-string field. -/
theorem updateNote_nonstring_validation_cex :
    (updateNote { db := [("1", { id := "1", title := "a", content := "b", lastModified := 0 })],
                  logs := [] } 5 "1"
        (some { title := some (.str " "), content := some (.num 3) })).2 =
      .error { message := "Title cannot be empty", code := some "VALIDATION_ERROR",
               statusCode := some 400, details := .field "title" } := by
  rfl

/-- C10 amended: with an existing id, `updateNote` fails with an
`InternalError` (code `INTERNAL_ERROR`, status 500) and leaves store and log
unchanged when the updates object is absent, when `updates.title` is present
but not a string, or when `updates.content` is present but not a string while
the title check passes (title absent or a string with non-empty trim). -/
theorem updateNote_internal_spec (st : ServiceState) (now : Nat) (id : String) (note : Note)
    (hg : dbGet st.db id = some note) :
    (updateNote st now id none =
      (st, .error { message := "Failed to update note", code := some "INTERNAL_ERROR",
                    statusCode := some 500,
                    details := .original "Cannot read properties of undefined (reading title)" })) ∧
    (∀ u : Updates, ∀ v, u.title = some v → (∀ s, v ≠ .str s) →
      updateNote st now id (some u) =
        (st, .error { message := "Failed to update note", code := some "INTERNAL_ERROR",
                      statusCode := some 500,
                      details := .original "updates.title.trim is not a function" })) ∧
    (∀ u : Updates, ∀ v, u.content = some v → (∀ s, v ≠ .str s) →
      (u.title = none ∨ ∃ s, u.title = some (.str s) ∧ jsTrim s ≠ "") →
      updateNote st now id (some u) =
        (st, .error { message := "Failed to update note", code := some "INTERNAL_ERROR",
                      statusCode := some 500,
                      details := .original "updates.content.trim is not a function" })) := by
  have hh : dbHas st.db id = true := dbHas_of_dbGet hg
  refine ⟨?_, ?_, ?_⟩
  · unfold updateNote updateNoteTry
    rw [if_neg (by simp [hh])]
    simp [rethrowKnown, createInternalError, createError]
  · intro u v hv hns
    have hchk : updateFieldCheck "title" u.title "Title cannot be empty" =
        .error { message := "updates.title.trim is not a function" } := by
      rcases v with s | n | b | _
      · exact absurd rfl (hns s)
      · simp [updateFieldCheck, hv]
      · simp [updateFieldCheck, hv]
      · simp [updateFieldCheck, hv]
    unfold updateNote
    rw [updateNoteTry_eq st now id u hh, hchk]
    simp [rethrowKnown, createInternalError, createError]
  · intro u v hv hns hT
    have hchkT : updateFieldCheck "title" u.title "Title cannot be empty" = .ok () := by
      rcases hT with hT | ⟨s, hs, hsne⟩
      · simp [updateFieldCheck, hT]
      · rw [hs]; exact updateFieldCheck_ok_of_str hsne
    have hchkC : updateFieldCheck "content" u.content "Content cannot be empty" =
        .error { message := "updates.content.trim is not a function" } := by
      rcases v with s | n | b | _
      · exact absurd rfl (hns s)
      · simp [updateFieldCheck, hv]
      · simp [updateFieldCheck, hv]
      · simp [updateFieldCheck, hv]
    unfold updateNote
    rw [updateNoteTry_eq st now id u hh, hchkT, hchkC]
    simp [rethrowKnown, createInternalError, createError]

/-- Closed witness for `updateNote_internal_spec`: a numeric content field on
a concrete store is wrapped as an `InternalError`. -/
theorem updateNote_internal_spec_witness :
    updateNote { db := [("1", { id := "1", title := "a", content := "b", lastModified := 0 })],
                 logs := [] } 5 "1" (some { content := some (.num 3) }) =
      ({ db := [("1", { id := "1", title := "a", content := "b", lastModified := 0 })],
         logs := [] },
       .error { message := "Failed to update note", code := some "INTERNAL_ERROR",
                statusCode := some 500,
                details := .original "updates.content.trim is not a function" }) :=
  (updateNote_internal_spec
    { db := [("1", { id := "1", title := "a", content := "b", lastModified := 0 })], logs := [] }
    5 "1" { id := "1", title := "a", content := "b", lastModified := 0 } (by decide)).2.2
    { content := some (.num 3) } (.num 3) rfl (by intro s h; cases h) (Or.inl rfl)

/-! ## Injectivity of `Date.now().toString()`: distinct millisecond readings
give distinct ids. -/

theorem toDigitsCore_digits : ∀ (n : Nat), 0 < n → ∀ (fuel : Nat) (acc : List Char),
    n < fuel →
    Nat.toDigitsCore 10 fuel n acc = ((Nat.digits 10 n).map Nat.digitChar).reverse ++ acc := by
  intro n
  induction n using Nat.strong_induction_on with
  | _ n ih =>
    intro hn fuel acc hfuel
    rcases fuel with _ | fuel
    · omega
    · simp only [Nat.toDigitsCore]
      by_cases h10 : n / 10 = 0
      · rw [if_pos h10]
        have hlt10 : n < 10 := by omega
        rw [Nat.digits_def' (b := 10) (by norm_num) hn, h10, Nat.digits_zero]
        simp [Nat.mod_eq_of_lt hlt10]
      · rw [if_neg h10]
        have hpos : 0 < n / 10 := Nat.pos_of_ne_zero h10
        have hlt : n / 10 < n := Nat.div_lt_self hn (by norm_num)
        rw [ih (n / 10) hlt hpos fuel (Nat.digitChar (n % 10) :: acc) (by omega)]
        rw [Nat.digits_def' (b := 10) (by norm_num) hn]
        simp

theorem natRepr_pos_eq {n : Nat} (hn : 0 < n) :
    Nat.repr n = ⟨((Nat.digits 10 n).map Nat.digitChar).reverse⟩ := by
  unfold Nat.repr Nat.toDigits
  rw [toDigitsCore_digits n hn (n + 1) [] (Nat.lt_succ_self n)]
  simp [List.asString]

theorem digitChar_inj {a b : Nat} (ha : a < 10) (hb : b < 10)
    (h : Nat.digitChar a = Nat.digitChar b) : a = b := by
  interval_cases a <;> interval_cases b <;> revert h <;> decide

theorem map_digitChar_inj : ∀ (l1 l2 : List Nat), (∀ x ∈ l1, x < 10) → (∀ x ∈ l2, x < 10) →
    l1.map Nat.digitChar = l2.map Nat.digitChar → l1 = l2
  | [], [], _, _, _ => rfl
  | [], _ :: _, _, _, h => by simp at h
  | _ :: _, [], _, _, h => by simp at h
  | a :: l1, b :: l2, h1, h2, h => by
    simp only [List.map_cons, List.cons.injEq] at h
    have hab := digitChar_inj (h1 a (by simp)) (h2 b (by simp)) h.1
    rw [hab, map_digitChar_inj l1 l2 (fun x hx => h1 x (by simp [hx]))
      (fun x hx => h2 x (by simp [hx])) h.2]

theorem natRepr_pos_ne_zero {n : Nat} (hn : 0 < n) : Nat.repr n ≠ "0" := by
  intro h
  rw [natRepr_pos_eq hn] at h
  have hdata : ((Nat.digits 10 n).map Nat.digitChar).reverse = ['0'] :=
    congrArg String.data h
  have hmap : (Nat.digits 10 n).map Nat.digitChar = ['0'] := by
    have := congrArg List.reverse hdata
    simpa using this
  rcases hd : Nat.digits 10 n with _ | ⟨d, rest⟩
  · rw [hd] at hmap; simp at hmap
  · rw [hd] at hmap
    rcases rest with _ | ⟨d2, rest⟩
    · simp only [List.map_cons, List.map_nil, List.cons.injEq, and_true] at hmap
      have hd10 : d < 10 := Nat.digits_lt_base (by norm_num) (by rw [hd]; simp)
      have hd0 : d = 0 := digitChar_inj hd10 (by norm_num) (by rw [hmap]; rfl)
      subst hd0
      have hof := Nat.ofDigits_digits 10 n
      rw [hd] at hof
      simp [Nat.ofDigits] at hof
      omega
    · simp at hmap

theorem natRepr_inj {m n : Nat} (h : Nat.repr m = Nat.repr n) : m = n := by
  rcases Nat.eq_zero_or_pos m with rfl | hm
  · rcases Nat.eq_zero_or_pos n with rfl | hn
    · rfl
    · exact absurd h.symm (natRepr_pos_ne_zero hn)
  · rcases Nat.eq_zero_or_pos n with rfl | hn
    · exact absurd h (natRepr_pos_ne_zero hm)
    · rw [natRepr_pos_eq hm, natRepr_pos_eq hn] at h
      have hdata : ((Nat.digits 10 m).map Nat.digitChar).reverse =
          ((Nat.digits 10 n).map Nat.digitChar).reverse := congrArg String.data h
      have hrev := congrArg List.reverse hdata
      simp only [List.reverse_reverse] at hrev
      have hdig := map_digitChar_inj _ _
        (fun x hx => Nat.digits_lt_base (by norm_num) hx)
        (fun x hx => Nat.digits_lt_base (by norm_num) hx) hrev
      have h1 := Nat.ofDigits_digits 10 m
      have h2 := Nat.ofDigits_digits 10 n
      rw [← h1, ← h2, hdig]

/-- Injectivity of `Date.now().toString()`: distinct clock readings give
distinct ids. -/
theorem natToString_inj {m n : Nat} (h : toString m = toString n) : m = n :=
  natRepr_inj h

/-! ## C3: sequences of `createNote` calls -/

theorem dbHas_iff_mem {db : List (String × Note)} {k : String} :
    dbHas db k = true ↔ k ∈ db.map Prod.fst := by
  unfold dbHas
  rw [List.any_eq_true]
  constructor
  · rintro ⟨p, hp, hpk⟩
    exact List.mem_map.mpr ⟨p, hp, by simpa using hpk⟩
  · rintro hk
    rcases List.mem_map.mp hk with ⟨p, hp, rfl⟩
    exact ⟨p, hp, by simp⟩

theorem runCreates_cons (st : ServiceState) (now : Nat) (nd : Option NoteInput)
    (rest : List (Nat × Option NoteInput)) :
    runCreates st ((now, nd) :: rest) =
      ((runCreates (createNote st now nd).1 rest).1,
       (createNote st now nd).2 :: (runCreates (createNote st now nd).1 rest).2) := rfl

theorem createNote_ok_shape {st : ServiceState} {now : Nat} {nd : Option NoteInput} {n : Note}
    (h : (createNote st now nd).2 = .ok n) :
    ∃ t c, nd = some { title := some (.str t), content := some (.str c) } ∧
      jsTrim t ≠ "" ∧ jsTrim c ≠ "" := by
  unfold createNote at h
  rcases hv : validateNoteData nd with m | u
  · rw [hv] at h; simp at h
  · cases u
    exact validateNoteData_ok_shape hv

theorem runCreates_general : ∀ (calls : List (Nat × Option NoteInput))
    (st : ServiceState) (t0 : Nat),
    (∀ k ∈ st.db.map Prod.fst, ∃ m, k = toString m ∧ m < t0) →
    (∀ x ∈ calls.map Prod.fst, t0 ≤ x) →
    (calls.map Prod.fst).Pairwise (· < ·) →
    (∀ r ∈ (runCreates st calls).2, ∃ n, r = Except.ok n) →
    resIds (runCreates st calls).2 = (calls.map Prod.fst).map (fun m => toString m) ∧
    (runCreates st calls).1.db.length = st.db.length + calls.length := by
  intro calls
  induction calls with
  | nil =>
    intro st t0 _ _ _ _
    exact ⟨rfl, rfl⟩
  | cons c rest ih =>
    rcases c with ⟨now, nd⟩
    intro st t0 hkeys hge hpair hok
    have hnow : t0 ≤ now := hge now (by simp)
    have hmem0 : (createNote st now nd).2 ∈ (runCreates st ((now, nd) :: rest)).2 := by
      rw [runCreates_cons]
      exact List.mem_cons_self _ _
    rcases hok _ hmem0 with ⟨n0, hn0⟩
    rcases createNote_ok_shape hn0 with ⟨t, c, rfl, ht, hc⟩
    have hrun := createNote_ok st now t c ht hc
    have hfresh : dbHas st.db (toString now) = false := by
      by_contra hcon
      have hcon' : dbHas st.db (toString now) = true := by simpa using hcon
      rcases hkeys _ (dbHas_iff_mem.mp hcon') with ⟨m, hm, hmlt⟩
      have : now = m := natToString_inj hm
      omega
    have hdb1 : (createNote st now
        (some { title := some (.str t), content := some (.str c) })).1.db =
        st.db ++ [(toString now,
          { id := toString now, title := jsTrim t, content := jsTrim c,
            lastModified := now })] := by
      rw [hrun]
      exact dbSet_fresh _ hfresh
    have hpair' : (now :: rest.map Prod.fst).Pairwise (· < ·) := by
      simpa only [List.map_cons] using hpair
    rcases List.pairwise_cons.mp hpair' with ⟨hlt_all, hpair_rest⟩
    obtain ⟨hids, hlen⟩ := ih
      (createNote st now (some { title := some (.str t), content := some (.str c) })).1
      (now + 1)
      (by
        rw [hdb1]
        intro k hk
        rw [List.map_append] at hk
        rcases List.mem_append.mp hk with hk' | hk'
        · rcases hkeys _ hk' with ⟨m, hm, hmlt⟩
          exact ⟨m, hm, by omega⟩
        · simp only [List.map_cons, List.map_nil, List.mem_singleton] at hk'
          exact ⟨now, hk', by omega⟩)
      (fun x hx => Nat.succ_le_of_lt (hlt_all x hx))
      hpair_rest
      (fun r hr => hok r (by rw [runCreates_cons]; exact List.mem_cons_of_mem _ hr))
    constructor
    · rw [runCreates_cons]
      have h2 : (createNote st now
          (some { title := some (.str t), content := some (.str c) })).2 =
          .ok { id := toString now, title := jsTrim t, content := jsTrim c,
                lastModified := now } := by rw [hrun]
      rw [h2] at hn0 ⊢
      simp only [resIds, List.filterMap_cons, okId]
      rw [← resIds]
      rw [hids]
      simp
    · rw [runCreates_cons]
      simp only at hlen ⊢
      rw [hlen, hdb1]
      simp
      omega

/-- C3 counterexample: two `createNote` calls on the same millisecond —
`Date.now()` returning 0 twice — both succeed but return the same id `"0"`,
the second overwrites the first in the store, and `getAllNotes` then returns
1 record, not 2; the returned ids are not pairwise distinct. -/
theorem createNote_same_clock_cex :
    resIds (runCreates emptyState
      [(0, some { title := some (.str "a"), content := some (.str "b") }),
       (0, some { title := some (.str "c"), content := some (.str "d") })]).2 = ["0", "0"] ∧
    ¬ (resIds (runCreates emptyState
      [(0, some { title := some (.str "a"), content := some (.str "b") }),
       (0, some { title := some (.str "c"), content := some (.str "d") })]).2).Pairwise
        (fun a b => a ≠ b) ∧
    (getAllNotes (runCreates emptyState
      [(0, some { title := some (.str "a"), content := some (.str "b") }),
       (0, some { title := some (.str "c"), content := some (.str "d") })]).1 1).2.length
      = 1 := by
  refine ⟨by rfl, ?_, by rfl⟩
  intro hp
  rw [show resIds (runCreates emptyState
      [(0, some { title := some (.str "a"), content := some (.str "b") }),
       (0, some { title := some (.str "c"), content := some (.str "d") })]).2 = ["0", "0"]
    from rfl] at hp
  exact absurd hp (by decide)

/-- C3 amended: for every sequence of successful `createNote` calls from the
empty store whose clock readings are strictly increasing (each call observes
a fresh millisecond), the returned ids are pairwise distinct and a subsequent
`getAllNotes` returns exactly N records. -/
theorem runCreates_distinct_ids (calls : List (Nat × Option NoteInput))
    (hinc : (calls.map Prod.fst).Pairwise (· < ·))
    (hok : ∀ r ∈ (runCreates emptyState calls).2, ∃ n, r = Except.ok n) :
    (resIds (runCreates emptyState calls).2).Pairwise (fun a b => a ≠ b) ∧
    (resIds (runCreates emptyState calls).2).length = calls.length ∧
    ∀ t, (getAllNotes (runCreates emptyState calls).1 t).2.length = calls.length := by
  obtain ⟨hids, hlen⟩ := runCreates_general calls emptyState 0
    (by simp [emptyState]) (fun x _ => Nat.zero_le x) hinc hok
  refine ⟨?_, ?_, ?_⟩
  · rw [hids, List.pairwise_map]
    exact hinc.imp (fun hab heq => absurd (natToString_inj heq) (Nat.ne_of_lt hab))
  · rw [hids]
    simp
  · intro t
    have h2 : (getAllNotes (runCreates emptyState calls).1 t).2 =
        dbValues (runCreates emptyState calls).1.db := rfl
    rw [h2]
    unfold dbValues
    rw [List.length_map, hlen]
    simp [emptyState]

/-- Closed witness for `runCreates_distinct_ids`: two creations at
milliseconds 1 and 2. -/
theorem runCreates_distinct_ids_witness :
    (resIds (runCreates emptyState
      [(1, some { title := some (.str "a"), content := some (.str "b") }),
       (2, some { title := some (.str "c"), content := some (.str "d") })]).2).Pairwise
        (fun a b => a ≠ b) ∧
    (resIds (runCreates emptyState
      [(1, some { title := some (.str "a"), content := some (.str "b") }),
       (2, some { title := some (.str "c"), content := some (.str "d") })]).2).length = 2 ∧
    (getAllNotes (runCreates emptyState
      [(1, some { title := some (.str "a"), content := some (.str "b") }),
       (2, some { title := some (.str "c"), content := some (.str "d") })]).1 9).2.length
      = 2 := by
  have h := runCreates_distinct_ids
    [(1, some { title := some (.str "a"), content := some (.str "b") }),
     (2, some { title := some (.str "c"), content := some (.str "d") })]
    (by decide)
    (by
      intro r hr
      have he : (runCreates emptyState
          [(1, some { title := some (.str "a"), content := some (.str "b") }),
           (2, some { title := some (.str "c"), content := some (.str "d") })]).2 =
          [Except.ok { id := "1", title := "a", content := "b", lastModified := 1 },
           Except.ok { id := "2", title := "c", content := "d", lastModified := 2 }] := by rfl
      rw [he] at hr
      simp only [List.mem_cons, List.not_mem_nil, or_false] at hr
      rcases hr with rfl | rfl
      · exact ⟨_, rfl⟩
      · exact ⟨_, rfl⟩)
  exact ⟨h.1, h.2.1, h.2.2 9⟩

/-! ## C7: the store invariant -/

theorem dbWF_mono {st : ServiceState} {t t' : Nat} (h : dbWF st t) (hle : t ≤ t') :
    dbWF st t' :=
  fun p hp => ⟨(h p hp).1, le_trans (h p hp).2 hle⟩

theorem dropWhile_rdrop (p : α → Bool) (l : List α) :
    List.dropWhile p (List.rdropWhile p (List.dropWhile p l)) =
      List.rdropWhile p (List.dropWhile p l) := by
  rw [List.dropWhile_eq_self_iff]
  intro hl
  have hpre : List.rdropWhile p (List.dropWhile p l) <+: List.dropWhile p l :=
    List.rdropWhile_prefix p (List.dropWhile p l)
  have hlen : 0 < (List.dropWhile p l).length := lt_of_lt_of_le hl hpre.length_le
  have hget := List.IsPrefix.getElem hpre hl
  rw [List.get_eq_getElem, hget]
  have := List.dropWhile_get_zero_not (p := p) l hlen
  simpa [List.get_eq_getElem] using this

theorem trimChars_idem (l : List Char) : trimChars (trimChars l) = trimChars l := by
  show List.rdropWhile jsWhite (List.dropWhile jsWhite
      (List.rdropWhile jsWhite (List.dropWhile jsWhite l))) =
    List.rdropWhile jsWhite (List.dropWhile jsWhite l)
  rw [dropWhile_rdrop]
  exact List.rdropWhile_idempotent _ _

/-- JavaScript `trim` is idempotent. -/
theorem jsTrim_idem (s : String) : jsTrim (jsTrim s) = jsTrim s :=
  congrArg String.mk (trimChars_idem s.data)

theorem createNote_err_state {st : ServiceState} {now : Nat} {nd : Option NoteInput}
    {m : String} (hv : validateNoteData nd = .error m) :
    (createNote st now nd).1 = st := by
  unfold createNote
  rw [hv]

theorem createNote_state (st : ServiceState) (now : Nat) (nd : Option NoteInput) :
    (createNote st now nd).1 = st ∨
    ∃ t c, nd = some { title := some (.str t), content := some (.str c) } ∧
      jsTrim t ≠ "" ∧ jsTrim c ≠ "" ∧
      (createNote st now nd).1.db = dbSet st.db (toString now)
        { id := toString now, title := jsTrim t, content := jsTrim c,
          lastModified := now } := by
  rcases hv : validateNoteData nd with m | uu
  · exact Or.inl (createNote_err_state hv)
  · cases uu
    rcases validateNoteData_ok_shape hv with ⟨t, c, rfl, ht, hc⟩
    right
    exact ⟨t, c, rfl, ht, hc, by rw [createNote_ok st now t c ht hc]⟩

theorem updateFieldCheck_ok_shape {f : String} {v : Option JSVal} {m : String}
    (h : updateFieldCheck f v m = .ok ()) :
    v = none ∨ ∃ s, v = some (JSVal.str s) ∧ jsTrim s ≠ "" := by
  match v with
  | none => exact Or.inl rfl
  | some (.str s) =>
    refine Or.inr ⟨s, rfl, fun hs => ?_⟩
    simp [updateFieldCheck, hs] at h
  | some (.num _) => simp [updateFieldCheck] at h
  | some (.boolean _) => simp [updateFieldCheck] at h
  | some .null => simp [updateFieldCheck] at h

theorem dbGet_of_dbHas {db : List (String × Note)} {id : String}
    (h : dbHas db id = true) : ∃ n, dbGet db id = some n := by
  unfold dbHas at h
  unfold dbGet
  rcases List.any_eq_true.mp h with ⟨p, hp, hpk⟩
  have hsome : (db.find? (fun q => q.1 == id)).isSome := List.find?_isSome.mpr ⟨p, hp, hpk⟩
  rcases Option.isSome_iff_exists.mp hsome with ⟨q, hq⟩
  exact ⟨q.2, by rw [hq]; rfl⟩

theorem dbGet_mem {db : List (String × Note)} {id : String} {n : Note}
    (h : dbGet db id = some n) : (id, n) ∈ db := by
  unfold dbGet at h
  rcases hf : db.find? (fun q => q.1 == id) with _ | q
  · rw [hf] at h; simp at h
  · rw [hf] at h
    have hq1 := List.find?_some hf
    have hqmem := List.mem_of_find?_eq_some hf
    rcases q with ⟨k, v⟩
    simp only [Option.map_some'] at h
    have hk : k = id := by simpa using hq1
    have hv : v = n := by simpa using h
    rw [← hk, ← hv]
    exact hqmem

theorem updateNote_state (st : ServiceState) (now : Nat) (id : String) (u : Option Updates) :
    (updateNote st now id u).1 = st ∨
    ∃ u' note, u = some u' ∧ dbGet st.db id = some note ∧
      (u'.title = none ∨ ∃ s, u'.title = some (JSVal.str s) ∧ jsTrim s ≠ "") ∧
      (u'.content = none ∨ ∃ s, u'.content = some (JSVal.str s) ∧ jsTrim s ≠ "") ∧
      (updateNote st now id u).1.db = dbSet st.db id (mergeNote note u' now) := by
  by_cases hh : dbHas st.db id
  · rcases u with _ | u'
    · left
      unfold updateNote updateNoteTry
      rw [if_neg (by simp [hh])]
    · rcases hT : updateFieldCheck "title" u'.title "Title cannot be empty" with e | uu
      · left
        unfold updateNote
        rw [updateNoteTry_eq st now id u' hh, hT]
      · cases uu
        rcases hC : updateFieldCheck "content" u'.content "Content cannot be empty" with e | uu2
        · left
          unfold updateNote
          rw [updateNoteTry_eq st now id u' hh, hT, hC]
        · cases uu2
          rcases dbGet_of_dbHas hh with ⟨note, hg⟩
          right
          refine ⟨u', note, rfl, hg, updateFieldCheck_ok_shape hT,
            updateFieldCheck_ok_shape hC, ?_⟩
          unfold updateNote
          rw [updateNoteTry_eq st now id u' hh, hT, hC, hg]
  · left
    unfold updateNote updateNoteTry
    rw [if_pos (by simp [hh])]

theorem deleteNote_state (st : ServiceState) (now : Nat) (id : String) :
    (deleteNote st now id).1 = st ∨ (deleteNote st now id).1.db = dbDelete st.db id := by
  by_cases hh : dbHas st.db id
  · right
    unfold deleteNote deleteNoteTry
    rw [if_neg (by simp [hh])]
  · left
    unfold deleteNote deleteNoteTry
    rw [if_pos (by simp [hh])]

theorem mergedField_WF {v : Option JSVal} {old : String}
    (hv : v = none ∨ ∃ s, v = some (JSVal.str s) ∧ jsTrim s ≠ "")
    (hold_ne : old ≠ "") (hold_trim : jsTrim old = old) :
    mergedField v old ≠ "" ∧ jsTrim (mergedField v old) = mergedField v old := by
  rcases hv with rfl | ⟨s, rfl, hsne⟩
  · exact ⟨hold_ne, hold_trim⟩
  · have hmf : mergedField (some (JSVal.str s)) old = jsTrim s := by
      simp [mergedField, hsne]
    rw [hmf]
    exact ⟨hsne, jsTrim_idem s⟩

/-- C7: in every state reachable from the empty store by `createNote`,
`updateNote` and `deleteNote` under a non-decreasing clock, every stored
record has non-empty title and content each equal to its own trim, and a
`lastModified` no later than the clock; consequently any successful update
from a reachable state can only keep or increase a record's
`lastModified`. -/
theorem reach_invariant (t : Nat) (st : ServiceState) (h : Reach t st) :
    dbWF st t ∧
    (∀ now, t ≤ now → ∀ id u st' r, updateNote st now id u = (st', .ok r) →
      ∀ old, dbGet st.db id = some old → old.lastModified ≤ r.lastModified) := by
  have hwf : dbWF st t := by
    induction h with
    | init t =>
      intro p hp
      simp [emptyState] at hp
    | step t now st st' hr hle hs ih =>
      have ih' : dbWF st now := dbWF_mono ih hle
      cases hs with
      | create _ _ nd =>
        rcases createNote_state st now nd with heq | ⟨t1, c1, hnd, ht1, hc1, hdb⟩
        · rw [heq]; exact ih'
        · intro p hp
          rw [hdb] at hp
          rcases mem_dbSet hp with rfl | hpmem
          · exact ⟨⟨ht1, jsTrim_idem t1, hc1, jsTrim_idem c1⟩, le_refl now⟩
          · exact ih' p hpmem
      | update _ _ id u =>
        rcases updateNote_state st now id u with heq | ⟨u', note, hu, hg, hTs, hCs, hdb⟩
        · rw [heq]; exact ih'
        · intro p hp
          rw [hdb] at hp
          have hnote := ih' _ (dbGet_mem hg)
          rcases mem_dbSet hp with rfl | hpmem
          · have hT' := mergedField_WF hTs hnote.1.1 hnote.1.2.1
            have hC' := mergedField_WF hCs hnote.1.2.2.1 hnote.1.2.2.2
            exact ⟨⟨hT'.1, hT'.2, hC'.1, hC'.2⟩, le_refl now⟩
          · exact ih' p hpmem
      | delete _ _ id =>
        rcases deleteNote_state st now id with heq | hdb
        · rw [heq]; exact ih'
        · intro p hp
          rw [hdb] at hp
          exact ih' p (mem_dbDelete hp)
  refine ⟨hwf, ?_⟩
  intro now hle id u st' r hupd old hold
  have hold' : old.lastModified ≤ t := (hwf _ (dbGet_mem hold)).2
  rcases u with _ | u'
  · exfalso
    have htry := updateNote_ok_imp_try hupd
    unfold updateNoteTry at htry
    by_cases hh : dbHas st.db id
    · rw [if_neg (by simp [hh])] at htry
      simp at htry
    · rw [if_pos (by simp [hh])] at htry
      simp at htry
  · have htry := updateNote_ok_imp_try hupd
    rcases updateNoteTry_ok_shape htry with ⟨note, hg, hr, _⟩
    have hrl : r.lastModified = now := by rw [hr]; rfl
    rw [hrl]
    exact le_trans hold' hle

/-- Closed witness for `reach_invariant`: the store after one concrete
creation at millisecond 1 is well-formed. -/
theorem reach_invariant_witness :
    dbWF (createNote emptyState 1
      (some { title := some (.str "a"), content := some (.str "b") })).1 1 :=
  (reach_invariant 1
    (createNote emptyState 1 (some { title := some (.str "a"), content := some (.str "b") })).1
    (Reach.step 0 1 emptyState _ (Reach.init 0) (by omega)
      (StepAt.create emptyState 1
        (some { title := some (.str "a"), content := some (.str "b") })))).1

end NotesTracker
